import Mathlib

/-!
# TradingSuite — shallow embedding and verification

Shallow embedding of the algorithmic core of the TradingSuite repository:
the shared signal-processing utilities (`src/services/supertrend/utils.py`),
the signal aggregator (`src/orchestrator/app.py`), and the walk-forward
backtester (`src/orchestrator/run_backtests.py`).

Modelling conventions:
* Python floats are modelled as exact rationals (`ℚ`).
* Python `round(x, 3)` is modelled as `round3`, rounding to the nearest
  multiple of 1/1000.
* Dates (pandas timestamps, used only through day-difference arithmetic
  `(d1 - d0).days`) are modelled as integer day numbers (`ℤ`).
* Signal strings `"LONG" | "SHORT" | "FLAT"` are a closed inductive type.
* Dict fields are structure fields; a field read with `.get(key, default)`
  in the source is an `Option` field read with `.getD default`.
* HTTP / async transport is out of the embedded core: the outcome of a
  network call appears as an explicit input value (`FetchOutcome`, the per
  step decision in the backtester).
-/

namespace TradingSuite

/-- The closed LONG/SHORT/FLAT tri-state used by every engine, the
aggregator and the backtester. -/
inductive Signal where
  | LONG
  | SHORT
  | FLAT
deriving DecidableEq, Repr

open Signal

/-- Python `round(x, 3)`: round to the nearest multiple of 1/1000
(ties are immaterial to every claim checked here). -/
def round3 (q : ℚ) : ℚ := (round (q * 1000) : ℚ) / 1000

/-! ## Shared signal utilities — `src/services/supertrend/utils.py` -/

/-- The engine response contract produced by
`SignalProcessor.format_signal_response` (the `timestamp` field, pure I/O,
is not modelled). -/
structure SignalResp where
  signal : Signal
  confidence : ℚ
  sl_pct : ℚ
  tp_multiple : ℚ
  rationale : List String
deriving DecidableEq, Repr

/-- The `market_conditions` dict passed to the confidence scorer; every
engine fills in both keys, so the `.get` defaults (1.0 and 0.5) never fire
and the fields are plain. -/
structure MarketConditions where
  volatility_factor : ℚ
  trend_strength : ℚ
deriving DecidableEq, Repr

/-- Source `SignalProcessor.calculate_confidence`: base strength plus a trend
bonus and a volatility penalty, clamped to [0, 1]. -/
def calculate_confidence (signal_strength : ℚ) (mc : MarketConditions) : ℚ :=
  let trend_adjustment := mc.trend_strength * (2/10)
  let volatility_adjustment := -(mc.volatility_factor - 1) * (1/10)
  let confidence := signal_strength + trend_adjustment + volatility_adjustment
  max 0 (min 1 confidence)

/-- Source `SignalProcessor.validate_signal`: FLAT always passes; a directional
signal passes only when its confidence reaches the caller minimum.  (The
source also rejects strings outside LONG/SHORT/FLAT; the closed `Signal`
type makes that branch unreachable.) -/
def validate_signal (signal : Signal) (confidence : ℚ) (min_confidence : ℚ) : Bool :=
  if signal = FLAT then true else decide (min_confidence ≤ confidence)

/-- Source `SignalProcessor.format_signal_response`: the standard response, with
the confidence rounded to 3 decimals. -/
def format_signal_response (signal : Signal) (confidence : ℚ) (sl_pct : ℚ)
    (tp_multiple : ℚ) (rationale : List String) : SignalResp :=
  { signal := signal
    confidence := round3 confidence
    sl_pct := sl_pct
    tp_multiple := tp_multiple
    rationale := rationale }

/-- Source `get_signal` in `src/services/supertrend/service.py`, lines 227-231:
a result failing `validate_signal` has its signal forced to FLAT and one
rationale line appended; every other field is untouched. -/
def apply_confidence_gate (r : SignalResp) (min_conf : ℚ) : SignalResp :=
  if validate_signal r.signal r.confidence min_conf then r
  else
    { r with
      signal := FLAT
      rationale := r.rationale ++
        ["Signal confidence " ++ toString r.confidence ++
          " below minimum " ++ toString min_conf] }

/-- Trend direction of `MarketAnalyzer.analyze_trend`; `FLAT` is the
insufficient-data default. -/
inductive TrendDirection where
  | UP
  | DOWN
  | SIDEWAYS
  | FLAT
deriving DecidableEq, Repr

/-- Result dict of `MarketAnalyzer.analyze_trend` (the two SMA diagnostic
keys default to 0 in the insufficient-data branch, where the source omits
them). -/
structure TrendResult where
  direction : TrendDirection
  strength : ℚ
  sma_short : ℚ
  sma_long : ℚ
deriving DecidableEq, Repr

/-- Last value of `TechnicalIndicators.sma(data, n)`: the mean of the last
`n` values of the series (pandas `rolling(n).mean().iloc[-1]`). -/
def smaLast (xs : List ℚ) (n : ℕ) : ℚ :=
  ((xs.drop (xs.length - n)).sum) / (n : ℚ)

/-- Source `MarketAnalyzer.analyze_trend` over the close series: with fewer than
`period` bars, a neutral default; otherwise direction by strict ordering
of the last close against the short (period/2) and long (period) SMAs, and
strength `min 1 (deviation from long SMA × 10)`. -/
def analyze_trend (closes : List ℚ) (period : ℕ) : TrendResult :=
  if closes.length < period then
    { direction := TrendDirection.FLAT, strength := 0, sma_short := 0, sma_long := 0 }
  else
    let sma_short_val := smaLast closes (period / 2)
    let sma_long_val := smaLast closes period
    let current_price := closes.getLastD 0
    let direction :=
      if sma_short_val < current_price ∧ sma_long_val < sma_short_val then
        TrendDirection.UP
      else if current_price < sma_short_val ∧ sma_short_val < sma_long_val then
        TrendDirection.DOWN
      else TrendDirection.SIDEWAYS
    let price_deviation := |current_price - sma_long_val| / sma_long_val
    let strength := min 1 (price_deviation * 10)
    { direction := direction, strength := strength,
      sma_short := sma_short_val, sma_long := sma_long_val }

/-! ## Signal aggregator — `src/orchestrator/app.py` -/

/-- Outcome of one engine query in `get_signal_from_service`: a successful
JSON response, an HTTP status error, or any other transport/runtime
failure.  The two failure branches of the source differ only in the prefix
of the recorded rationale message. -/
inductive FetchOutcome where
  | ok (r : SignalResp)
  | httpError (msg : String)
  | failed (msg : String)
deriving DecidableEq, Repr

/-- Source `TradingOrchestrator.get_signal_from_service`: return the engine's
response, or a degraded FLAT / zero-confidence response recording the
failure in its rationale. -/
def get_signal_from_service : FetchOutcome → SignalResp
  | FetchOutcome.ok r => r
  | FetchOutcome.httpError msg =>
    { signal := Signal.FLAT, confidence := 0, sl_pct := 0, tp_multiple := 0,
      rationale := ["Service HTTP error: " ++ msg] }
  | FetchOutcome.failed msg =>
    { signal := Signal.FLAT, confidence := 0, sl_pct := 0, tp_multiple := 0,
      rationale := ["Service error: " ++ msg] }

/-- One per-engine entry of the aggregate's `components` list. -/
structure Component where
  svc : String
  signal : Signal
  confidence : ℚ
  rationale : List String
deriving DecidableEq, Repr

/-- The aggregated decision returned by
`TradingOrchestrator.aggregate_signals` (the `timestamp` metadata field is
not modelled). -/
structure AggDecision where
  decision : Signal
  confidence : ℚ
  components : List Component
  sl_pct : ℚ
  tp_multiple : ℚ
  total_signals : ℕ
  valid_signals : ℕ
  long_signals : ℕ
  short_signals : ℕ
  min_confidence_threshold : ℚ
deriving DecidableEq, Repr

/-- Accumulator of the result loop in `aggregate_signals`. -/
structure Tally where
  valid_signals : ℕ
  long_signals : ℕ
  short_signals : ℕ
  total_confidence : ℚ
deriving DecidableEq, Repr

/-- One iteration of the result loop: non-FLAT results are counted as
valid, their confidence accumulated, and their direction tallied. -/
def tallyStep (t : Tally) (r : SignalResp) : Tally :=
  if r.signal ≠ Signal.FLAT then
    { valid_signals := t.valid_signals + 1
      long_signals := if r.signal = Signal.LONG then t.long_signals + 1 else t.long_signals
      short_signals := if r.signal = Signal.SHORT then t.short_signals + 1 else t.short_signals
      total_confidence := t.total_confidence + r.confidence }
  else t

/-- Source `TradingOrchestrator.aggregate_signals` given the per-engine results
(the concurrent fan-out already resolved into a result list): tally
non-FLAT results, then no valid signal → FLAT/0; average confidence below
the threshold → FLAT with the average; otherwise strict majority of
LONG vs SHORT, tie → FLAT.  Final confidence is rounded to 3 decimals;
stop-loss and take-profit are the fixed defaults 0.025 and 1.5. -/
def aggregate_signals (results : List (String × SignalResp)) (min_conf : ℚ) :
    AggDecision :=
  let components := results.map fun p =>
    { svc := p.1, signal := p.2.signal, confidence := p.2.confidence,
      rationale := p.2.rationale : Component }
  let t := results.foldl (fun t p => tallyStep t p.2) ⟨0, 0, 0, 0⟩
  let dc : Signal × ℚ :=
    if t.valid_signals = 0 then (Signal.FLAT, 0)
    else
      let avg_confidence := t.total_confidence / (t.valid_signals : ℚ)
      if avg_confidence < min_conf then (Signal.FLAT, avg_confidence)
      else if t.short_signals < t.long_signals then (Signal.LONG, avg_confidence)
      else if t.long_signals < t.short_signals then (Signal.SHORT, avg_confidence)
      else (Signal.FLAT, avg_confidence)
  { decision := dc.1
    confidence := round3 dc.2
    components := components
    sl_pct := 25/1000
    tp_multiple := 3/2
    total_signals := results.length
    valid_signals := t.valid_signals
    long_signals := t.long_signals
    short_signals := t.short_signals
    min_confidence_threshold := min_conf }

/-! ## Walk-forward backtester — `src/orchestrator/run_backtests.py` -/

/-- Parameters fixed in `BacktestRunner.__init__`: minimum holding period
(calendar days), commission rate, initial capital. -/
structure BTParams where
  min_holding_days : ℤ
  commission_rate : ℚ
  initial_capital : ℚ
deriving DecidableEq, Repr

/-- The aggregated signal consumed by one backtest step (the orchestrator
`/decide` response; `sl_pct` is read with `.get("sl_pct", 0.025)`, so it
is optional). -/
structure BtSignal where
  decision : Signal
  confidence : ℚ
  sl_pct : Option ℚ
deriving DecidableEq, Repr

/-- An open position as tracked by the backtest loop. -/
structure Position where
  entry_date : ℤ
  side : Signal
  entry_price : ℚ
  size : ℚ
  signal_confidence : ℚ
deriving DecidableEq, Repr

/-- A closed trade as appended to the trade ledger. -/
structure Trade where
  entry_date : ℤ
  exit_date : ℤ
  side : Signal
  entry_price : ℚ
  exit_price : ℚ
  size : ℚ
  pnl : ℚ
  commission : ℚ
  days_held : ℤ
  signal_confidence : ℚ
deriving DecidableEq, Repr

/-- One simulation step: the bar date, its close price, and the aggregated
decision obtained for it. -/
structure BtStep where
  date : ℤ
  price : ℚ
  signal : BtSignal
deriving DecidableEq, Repr

/-- The loop state of `run_walk_forward_backtest`. -/
structure BTState where
  trades : List Trade
  position : Option Position
  capital : ℚ
  equity_curve : List ℚ
deriving DecidableEq, Repr

/-- Source `BacktestRunner.calculate_position_size`: FLAT → 0; otherwise risk 2%
of capital against the stop-loss distance, capped at 95% of capital worth
of shares. -/
def calculate_position_size (signal : BtSignal) (current_price : ℚ)
    (available_capital : ℚ) : ℚ :=
  if signal.decision = Signal.FLAT then 0
  else
    let risk_amount := available_capital * (2/100)
    let sl_pct := signal.sl_pct.getD (25/1000)
    let position_size := risk_amount / (current_price * sl_pct)
    let max_position_value := available_capital * (95/100)
    let max_position_size := max_position_value / current_price
    min position_size max_position_size

/-- Directional gross P&L of closing `pos` at `exit_price`:
(exit − entry)·size for LONG, (entry − exit)·size otherwise. -/
def gross_pnl (pos : Position) (exit_price : ℚ) : ℚ :=
  if pos.side = Signal.LONG then (exit_price - pos.entry_price) * pos.size
  else (pos.entry_price - exit_price) * pos.size

/-- Round-trip commission: (entry + exit) · size · commission_rate. -/
def commission_of (P : BTParams) (pos : Position) (exit_price : ℚ) : ℚ :=
  (pos.entry_price + exit_price) * pos.size * P.commission_rate

/-- The trade record appended when `pos` closes at `exit_date`/`exit_price`. -/
def close_trade (P : BTParams) (pos : Position) (exit_date : ℤ) (exit_price : ℚ) :
    Trade :=
  { entry_date := pos.entry_date
    exit_date := exit_date
    side := pos.side
    entry_price := pos.entry_price
    exit_price := exit_price
    size := pos.size
    pnl := gross_pnl pos exit_price - commission_of P pos exit_price
    commission := commission_of P pos exit_price
    days_held := exit_date - pos.entry_date
    signal_confidence := pos.signal_confidence }

/-- One iteration of the walk-forward loop: first the exit check for an
open position (close once held at least `min_holding_days` calendar days),
then — only when flat — the entry check (open when the decision is
non-FLAT and the computed size is positive), then append the running
capital to the equity curve. -/
def processStep (P : BTParams) (st : BTState) (s : BtStep) : BTState :=
  let st1 :=
    match st.position with
    | some pos =>
      let days_held := s.date - pos.entry_date
      if P.min_holding_days ≤ days_held then
        let tr := close_trade P pos s.date s.price
        { st with
          capital := st.capital + tr.pnl
          trades := st.trades ++ [tr]
          position := none }
      else st
    | none => st
  let st2 :=
    if st1.position = none ∧ s.signal.decision ≠ Signal.FLAT then
      let position_size := calculate_position_size s.signal s.price st1.capital
      if 0 < position_size then
        { st1 with
          position := some
            { entry_date := s.date
              side := s.signal.decision
              entry_price := s.price
              size := position_size
              signal_confidence := s.signal.confidence } }
      else st1
    else st1
  { st2 with equity_curve := st2.equity_curve ++ [st2.capital] }

/-- Initial loop state of `run_walk_forward_backtest`. -/
def bt_init (P : BTParams) : BTState :=
  { trades := [], position := none, capital := P.initial_capital,
    equity_curve := [P.initial_capital] }

/-- The walk-forward loop before the final force-close. -/
def bt_loop (P : BTParams) (steps : List BtStep) : BTState :=
  steps.foldl (processStep P) (bt_init P)

/-- Source `BacktestRunner.run_walk_forward_backtest`, given the resolved per-step
inputs: fold the step function from the initial state, then force-close
any still-open position at the final bar's date and close price (no
holding-period check). -/
def run_walk_forward_backtest (P : BTParams) (steps : List BtStep)
    (final_date : ℤ) (final_price : ℚ) : BTState :=
  let st := bt_loop P steps
  match st.position with
  | some pos =>
    let tr := close_trade P pos final_date final_price
    { st with
      capital := st.capital + tr.pnl
      trades := st.trades ++ [tr]
      position := none }
  | none => st

/-! ## Trade metrics — `BacktestRunner.calculate_trade_metrics`

The metric computations consume only the `pnl` column of the trade
ledger, so they are embedded over the list of trade P&Ls. -/

/-- Source `winning_trades`: number of trades with pnl > 0. -/
def winning_trades (pnls : List ℚ) : ℕ := (pnls.filter (fun p => 0 < p)).length

/-- Source `losing_trades`: number of trades with pnl < 0. -/
def losing_trades (pnls : List ℚ) : ℕ := (pnls.filter (fun p => p < 0)).length

/-- Source `gross_profit`: sum of positive P&Ls. -/
def gross_profit (pnls : List ℚ) : ℚ := (pnls.filter (fun p => 0 < p)).sum

/-- Source `gross_loss`: absolute value of the sum of negative P&Ls. -/
def gross_loss (pnls : List ℚ) : ℚ := |(pnls.filter (fun p => p < 0)).sum|

/-- Value of the profit-factor metric: a finite rational or the
`float('inf')` sentinel. -/
inductive PFValue where
  | finite (q : ℚ)
  | posInf
deriving DecidableEq, Repr

/-- Source `profit_factor` as computed by `calculate_trade_metrics`: 0 for an
empty ledger (the early-return branch), otherwise gross_profit/gross_loss
when gross_loss > 0 and `float('inf')` when gross_loss = 0. -/
def profit_factor (pnls : List ℚ) : PFValue :=
  if pnls = [] then PFValue.finite 0
  else if 0 < gross_loss pnls then
    PFValue.finite (gross_profit pnls / gross_loss pnls)
  else PFValue.posInf

/-- The equity curve of `calculate_trade_metrics`: initial capital, then
the running sum of trade P&Ls. -/
def metric_equity_curve (initial_capital : ℚ) (pnls : List ℚ) : List ℚ :=
  pnls.scanl (fun acc p => acc + p) initial_capital

/-- Per-point drawdowns `(equity − running max)/running max`, carrying the
expanding maximum `m` forward (pandas `expanding().max()`). -/
def drawdownsFrom (m : ℚ) : List ℚ → List ℚ
  | [] => []
  | e :: es => (e - max m e) / max m e :: drawdownsFrom (max m e) es

/-- Source `max_drawdown`: minimum of the drawdown series of the equity curve
(the curve is never empty, so the `[]` branch is unreachable). -/
def max_drawdown (initial_capital : ℚ) (pnls : List ℚ) : ℚ :=
  match metric_equity_curve initial_capital pnls with
  | [] => 0
  | e :: es =>
    match drawdownsFrom e (e :: es) with
    | [] => 0
    | d :: ds => ds.foldl min d

/-! ## Specification-side definition for the aggregator claim -/

/-- A component result carrying a non-FLAT signal ("valid" in the spec's
words). -/
def isValidR (p : String × SignalResp) : Bool :=
  match p.2.signal with
  | Signal.FLAT => false
  | _ => true

/-- A component result voting LONG. -/
def isLongR (p : String × SignalResp) : Bool :=
  match p.2.signal with
  | Signal.LONG => true
  | _ => false

/-- A component result voting SHORT. -/
def isShortR (p : String × SignalResp) : Bool :=
  match p.2.signal with
  | Signal.SHORT => true
  | _ => false

/-- Modelled from the spec's reduction rule (for comparison against
`aggregate_signals`): `valid` = non-FLAT components; none → FLAT/0;
average confidence of `valid` below the threshold → FLAT reporting the
average; otherwise strict vote majority among `valid`, tie → FLAT, in each
case reporting the average rounded to 3 decimals. -/
def specAggregatorReduction (results : List (String × SignalResp)) (min_conf : ℚ) :
    Signal × ℚ :=
  let valid := results.filter isValidR
  if valid = [] then (Signal.FLAT, 0)
  else
    let avg := (valid.map fun p => p.2.confidence).sum / (valid.length : ℚ)
    if avg < min_conf then (Signal.FLAT, round3 avg)
    else if (valid.filter isShortR).length < (valid.filter isLongR).length then
      (Signal.LONG, round3 avg)
    else if (valid.filter isLongR).length < (valid.filter isShortR).length then
      (Signal.SHORT, round3 avg)
    else (Signal.FLAT, round3 avg)

/-! ## Concrete inputs used by the witnesses -/

/-- A directional engine result below a 0.7 threshold. -/
def gateDemoLong : SignalResp :=
  { signal := Signal.LONG, confidence := 1/2, sl_pct := 1/40, tp_multiple := 3/2,
    rationale := ["Supertrend remains bullish"] }

/-- A FLAT engine result with nonzero confidence. -/
def gateDemoFlat : SignalResp :=
  { signal := Signal.FLAT, confidence := 1/10, sl_pct := 1/40, tp_multiple := 3/2,
    rationale := [] }

/-- A non-FLAT aggregated decision for position sizing. -/
def sizeDemoSignal : BtSignal :=
  { decision := Signal.LONG, confidence := 4/5, sl_pct := some (25/1000) }

/-- A minimal engine result with the default stop-loss/take-profit. -/
def mkDemoResp (signal : Signal) (confidence : ℚ) : SignalResp :=
  { signal := signal, confidence := confidence, sl_pct := 25/1000,
    tp_multiple := 3/2, rationale := [] }

/-- Four LONG results at confidence 0.8 plus three FLAT results — the spec's
second truth-table row. -/
def aggDemoResults : List (String × SignalResp) :=
  [("supertrend", mkDemoResp Signal.LONG (4/5)),
   ("alphatrend", mkDemoResp Signal.LONG (4/5)),
   ("ichimoku", mkDemoResp Signal.LONG (4/5)),
   ("qqe_ssl_wae", mkDemoResp Signal.LONG (4/5)),
   ("turtle", mkDemoResp Signal.FLAT 0),
   ("meanrev", mkDemoResp Signal.FLAT 0),
   ("trend", mkDemoResp Signal.FLAT 0)]

/-- Backtest parameters as configured in `BacktestRunner.__init__`. -/
def btDemoParams : BTParams :=
  { min_holding_days := 7, commission_rate := 1/1000, initial_capital := 100000 }

/-- An open LONG position entered at day 0 at price 100. -/
def btDemoPos : Position :=
  { entry_date := 0, side := Signal.LONG, entry_price := 100, size := 10,
    signal_confidence := 4/5 }

/-- A loop state holding `btDemoPos` with 100000 capital. -/
def btDemoState : BTState :=
  { trades := [], position := some btDemoPos, capital := 100000,
    equity_curve := [100000] }

/-- A step 10 calendar days after entry, price 110, SHORT decision. -/
def btDemoStep : BtStep :=
  { date := 10, price := 110,
    signal := { decision := Signal.SHORT, confidence := 9/10, sl_pct := some (25/1000) } }

end TradingSuite

namespace TradingSuite

/-! ## Basic facts about `round3` -/

theorem round3_nonneg {q : ℚ} (h : 0 ≤ q) : 0 ≤ round3 q := by
  unfold round3
  have h1 : (0 : ℤ) ≤ round (q * 1000) := by
    rw [round_eq]
    exact Int.floor_nonneg.mpr (by linarith)
  exact div_nonneg (by exact_mod_cast h1) (by norm_num)

theorem round3_le_one {q : ℚ} (h : q ≤ 1) : round3 q ≤ 1 := by
  unfold round3
  have h1 : round (q * 1000) ≤ (1000 : ℤ) := by
    rw [round_eq]
    have : q * 1000 + 1 / 2 < (1001 : ℚ) := by linarith
    exact Int.le_of_lt_add_one (Int.floor_lt.mpr (by exact_mod_cast this))
  rw [div_le_one (by norm_num)]
  exact_mod_cast h1

theorem round3_zero : round3 0 = 0 := by
  simp [round3]

/-! ## C2 — the shared confidence scorer -/

/-- C2: for every engine input, the emitted confidence equals
`clamp01(signal_strength + 0.2·trend_strength − 0.1·(volatility_factor − 1))`
computed by the shared scorer, rounded to 3 decimals in the response, and
it always lies in [0, 1]. -/
theorem C2_confidence_scorer (signal : Signal) (signal_strength : ℚ)
    (mc : MarketConditions) (sl_pct tp_multiple : ℚ) (rationale : List String) :
    (format_signal_response signal (calculate_confidence signal_strength mc)
        sl_pct tp_multiple rationale).confidence
      = round3 (max 0 (min 1 (signal_strength + (2/10) * mc.trend_strength
          - (1/10) * (mc.volatility_factor - 1)))) ∧
    0 ≤ (format_signal_response signal (calculate_confidence signal_strength mc)
        sl_pct tp_multiple rationale).confidence ∧
    (format_signal_response signal (calculate_confidence signal_strength mc)
        sl_pct tp_multiple rationale).confidence ≤ 1 := by
  have hc : calculate_confidence signal_strength mc
      = max 0 (min 1 (signal_strength + (2/10) * mc.trend_strength
          - (1/10) * (mc.volatility_factor - 1))) := by
    unfold calculate_confidence
    ring_nf
  refine ⟨?_, ?_, ?_⟩
  · show round3 (calculate_confidence signal_strength mc) = _
    rw [hc]
  · show (0 : ℚ) ≤ round3 (calculate_confidence signal_strength mc)
    rw [hc]
    exact round3_nonneg (le_max_left _ _)
  · show round3 (calculate_confidence signal_strength mc) ≤ 1
    rw [hc]
    exact round3_le_one (max_le (by norm_num) (min_le_left _ _))

/-! ## C9 — the confidence gate is a pure frame on the signal field -/

/-- C9: when a result's signal is non-FLAT and its confidence is below the
caller minimum, the gate changes only the signal (to FLAT) and appends one
rationale line, leaving confidence, stop-loss and take-profit untouched;
an already-FLAT result passes unmodified whatever its confidence. -/
theorem C9_confidence_gate (r : SignalResp) (min_conf : ℚ) :
    (r.signal ≠ Signal.FLAT → r.confidence < min_conf →
      apply_confidence_gate r min_conf =
        { signal := Signal.FLAT
          confidence := r.confidence
          sl_pct := r.sl_pct
          tp_multiple := r.tp_multiple
          rationale := r.rationale ++
            ["Signal confidence " ++ toString r.confidence ++
              " below minimum " ++ toString min_conf] }) ∧
    (r.signal = Signal.FLAT → apply_confidence_gate r min_conf = r) := by
  constructor
  · intro h1 h2
    cases r with
    | mk signal confidence sl_pct tp_multiple rationale =>
      simp only [apply_confidence_gate, validate_signal] at *
      rw [if_neg h1, if_neg (by simpa using not_le.mpr h2)]
  · intro h
    simp [apply_confidence_gate, validate_signal, h]

/-- Witness for C9: a LONG result at confidence 0.5 against threshold 0.7
is flattened with every other field preserved; a FLAT result at
confidence 0.1 passes unmodified. -/
theorem C9_confidence_gate_witness :
    apply_confidence_gate gateDemoLong (7/10) =
      { signal := Signal.FLAT
        confidence := gateDemoLong.confidence
        sl_pct := gateDemoLong.sl_pct
        tp_multiple := gateDemoLong.tp_multiple
        rationale := gateDemoLong.rationale ++
          ["Signal confidence " ++ toString gateDemoLong.confidence ++
            " below minimum " ++ toString (7/10 : ℚ)] } ∧
    apply_confidence_gate gateDemoFlat (7/10) = gateDemoFlat :=
  ⟨(C9_confidence_gate gateDemoLong (7/10)).1 (by decide) (by norm_num [gateDemoLong]),
   (C9_confidence_gate gateDemoFlat (7/10)).2 rfl⟩

/-! ## C4 — position sizing invariant -/

/-- C4: with positive price and capital, a FLAT decision sizes to 0, a
non-FLAT decision sizes to min(2%·capital/(price·sl_pct),
95%·capital/price), and in all cases the position value never exceeds 95%
of available capital. -/
theorem C4_position_sizing (signal : BtSignal) (current_price : ℚ)
    (available_capital : ℚ) (hp : 0 < current_price) (hc : 0 < available_capital) :
    (signal.decision = Signal.FLAT →
      calculate_position_size signal current_price available_capital = 0) ∧
    (signal.decision ≠ Signal.FLAT →
      calculate_position_size signal current_price available_capital =
        min ((2/100) * available_capital
              / (current_price * signal.sl_pct.getD (25/1000)))
            ((95/100) * available_capital / current_price)) ∧
    calculate_position_size signal current_price available_capital * current_price
      ≤ (95/100) * available_capital := by
  refine ⟨?_, ?_, ?_⟩
  · intro h
    simp [calculate_position_size, h]
  · intro h
    simp only [calculate_position_size, if_neg h]
    congr 1
    · ring
    · ring
  · by_cases h : signal.decision = Signal.FLAT
    · simp only [calculate_position_size, if_pos h]
      nlinarith
    · simp only [calculate_position_size, if_neg h]
      have hb : available_capital * (95/100) / current_price * current_price
          = (95/100) * available_capital := by
        field_simp
        ring
      calc min (available_capital * (2/100)
              / (current_price * signal.sl_pct.getD (25/1000)))
            (available_capital * (95/100) / current_price) * current_price
          ≤ available_capital * (95/100) / current_price * current_price :=
            mul_le_mul_of_nonneg_right (min_le_right _ _) hp.le
        _ = (95/100) * available_capital := hb

/-- Witness for C4: a LONG decision, price 10, capital 1000 — the computed
position value respects the 95% cap. -/
theorem C4_position_sizing_witness :
    calculate_position_size sizeDemoSignal 10 1000 * 10 ≤ (95/100) * 1000 :=
  (C4_position_sizing sizeDemoSignal 10 1000 (by norm_num) (by norm_num)).2.2

/-! ## The aggregator's tally loop, described by filters -/

theorem foldl_tallyStep_spec (results : List (String × SignalResp)) (t : Tally) :
    results.foldl (fun t p => tallyStep t p.2) t =
      { valid_signals := t.valid_signals + (results.filter isValidR).length
        long_signals := t.long_signals + (results.filter isLongR).length
        short_signals := t.short_signals + (results.filter isShortR).length
        total_confidence := t.total_confidence +
          ((results.filter isValidR).map fun p => p.2.confidence).sum } := by
  induction results generalizing t with
  | nil => simp
  | cons r rs ih =>
    rw [List.foldl_cons, ih]
    cases h : r.2.signal <;>
      simp [tallyStep, h, isValidR, isLongR, isShortR, List.filter_cons,
        add_assoc, add_comm, add_left_comm]

theorem filter_long_of_valid (results : List (String × SignalResp)) :
    (results.filter isValidR).filter isLongR = results.filter isLongR := by
  rw [List.filter_filter]
  refine List.filter_congr ?_
  intro a _
  cases h : a.2.signal <;> simp [isValidR, isLongR, h]

theorem filter_short_of_valid (results : List (String × SignalResp)) :
    (results.filter isValidR).filter isShortR = results.filter isShortR := by
  rw [List.filter_filter]
  refine List.filter_congr ?_
  intro a _
  cases h : a.2.signal <;> simp [isValidR, isShortR, h]

/-! ## C1 — the aggregator's reduction rule -/

/-- C1: for every list of 7 per-engine results, `aggregate_signals`
produces exactly the spec's reduction — FLAT/0 with no non-FLAT
component; FLAT reporting the average confidence when that average is
below the threshold; otherwise the strict LONG/SHORT vote majority (tie →
FLAT), reporting the average rounded to 3 decimals. -/
theorem C1_aggregator_reduction (results : List (String × SignalResp))
    (min_conf : ℚ) (h7 : results.length = 7) :
    ((aggregate_signals results min_conf).decision,
      (aggregate_signals results min_conf).confidence)
      = specAggregatorReduction results min_conf := by
  unfold aggregate_signals specAggregatorReduction
  rw [foldl_tallyStep_spec]
  dsimp only
  rw [filter_long_of_valid, filter_short_of_valid]
  simp only [Nat.zero_add, zero_add]
  by_cases hv : results.filter isValidR = []
  · simp [hv, round3_zero]
  · have hlen : ¬ (results.filter isValidR).length = 0 := by
      simpa [List.length_eq_zero] using hv
    rw [if_neg hlen, if_neg hv]
    split_ifs <;> rfl

/-- Witness for C1: 4 LONG at confidence 0.8 and 3 FLAT against threshold
0.7 aggregate to LONG at confidence 0.8. -/
theorem C1_aggregator_reduction_witness :
    ((aggregate_signals aggDemoResults (7/10)).decision,
      (aggregate_signals aggDemoResults (7/10)).confidence)
      = (Signal.LONG, 4/5) := by
  have h := C1_aggregator_reduction aggDemoResults (7/10) (by rfl)
  rw [h]
  norm_num [specAggregatorReduction, aggDemoResults, mkDemoResp, isValidR,
    isLongR, isShortR, round3, round_eq, List.filter]
  simp

/-! ## C8 — engine failure degrades to a FLAT component, never aborts -/

/-- C8: a failed or errored engine query yields a FLAT, zero-confidence
component whose rationale records the failure, and aggregation carries on
over the remaining components: the failed engine still appears in the
component list, and the decision and confidence are exactly those computed
without it. -/
theorem C8_engine_failure_degrades (m : String) (f : FetchOutcome)
    (svc : String) (pre post : List (String × SignalResp)) (min_conf : ℚ)
    (hf : f = FetchOutcome.httpError m ∨ f = FetchOutcome.failed m) :
    ((get_signal_from_service f).signal = Signal.FLAT ∧
     (get_signal_from_service f).confidence = 0 ∧
     ((get_signal_from_service f).rationale = ["Service HTTP error: " ++ m] ∨
      (get_signal_from_service f).rationale = ["Service error: " ++ m])) ∧
    (aggregate_signals (pre ++ [(svc, get_signal_from_service f)] ++ post)
        min_conf).decision
      = (aggregate_signals (pre ++ post) min_conf).decision ∧
    (aggregate_signals (pre ++ [(svc, get_signal_from_service f)] ++ post)
        min_conf).confidence
      = (aggregate_signals (pre ++ post) min_conf).confidence ∧
    (aggregate_signals (pre ++ [(svc, get_signal_from_service f)] ++ post)
        min_conf).components.length
      = pre.length + 1 + post.length := by
  have hdeg : (get_signal_from_service f).signal = Signal.FLAT ∧
      (get_signal_from_service f).confidence = 0 := by
    rcases hf with h | h <;> subst h <;> exact ⟨rfl, rfl⟩
  have htally : ∀ t0 : Tally,
      (pre ++ [(svc, get_signal_from_service f)] ++ post).foldl
          (fun t p => tallyStep t p.2) t0
        = (pre ++ post).foldl (fun t p => tallyStep t p.2) t0 := by
    intro t0
    rw [List.foldl_append, List.foldl_append, List.foldl_append,
      List.foldl_cons, List.foldl_nil]
    have hstep : ∀ t : Tally, tallyStep t (get_signal_from_service f) = t := by
      intro t
      unfold tallyStep
      rw [if_neg (by simp [hdeg.1])]
    rw [hstep]
  refine ⟨⟨hdeg.1, hdeg.2, ?_⟩, ?_, ?_, ?_⟩
  · rcases hf with h | h <;> subst h
    · exact Or.inl rfl
    · exact Or.inr rfl
  · unfold aggregate_signals
    rw [htally]
  · unfold aggregate_signals
    rw [htally]
  · unfold aggregate_signals
    dsimp only
    rw [List.length_map, List.length_append, List.length_append]
    simp

/-- Witness for C8: a transport failure among two healthy engines is
degraded to FLAT/0 with the failure recorded, and the decision equals the
one computed from the two healthy engines alone. -/
theorem C8_engine_failure_degrades_witness :
    (get_signal_from_service (FetchOutcome.failed "timeout")).signal
      = Signal.FLAT ∧
    (aggregate_signals
        ([("supertrend", mkDemoResp Signal.LONG (4/5))] ++
          [("turtle", get_signal_from_service (FetchOutcome.failed "timeout"))] ++
          [("trend", mkDemoResp Signal.LONG (9/10))]) (7/10)).decision
      = (aggregate_signals
          ([("supertrend", mkDemoResp Signal.LONG (4/5))] ++
            [("trend", mkDemoResp Signal.LONG (9/10))]) (7/10)).decision :=
  ⟨((C8_engine_failure_degrades "timeout" (FetchOutcome.failed "timeout")
      "turtle" [("supertrend", mkDemoResp Signal.LONG (4/5))]
      [("trend", mkDemoResp Signal.LONG (9/10))] (7/10) (Or.inr rfl)).1).1,
   ((C8_engine_failure_degrades "timeout" (FetchOutcome.failed "timeout")
      "turtle" [("supertrend", mkDemoResp Signal.LONG (4/5))]
      [("trend", mkDemoResp Signal.LONG (9/10))] (7/10) (Or.inr rfl)).2).1⟩

/-! ## List sum sign lemmas -/

theorem sum_pos_of_mem_pos : ∀ (xs : List ℚ), xs ≠ [] → (∀ x ∈ xs, 0 < x) →
    0 < xs.sum
  | [], h, _ => absurd rfl h
  | x :: xs, _, h => by
    rw [List.sum_cons]
    have hx := h x (List.mem_cons_self _ _)
    rcases eq_or_ne xs [] with h1 | h1
    · subst h1; simpa using hx
    · have := sum_pos_of_mem_pos xs h1 fun y hy => h y (List.mem_cons_of_mem _ hy)
      linarith

theorem sum_neg_of_mem_neg : ∀ (xs : List ℚ), xs ≠ [] → (∀ x ∈ xs, x < 0) →
    xs.sum < 0
  | [], h, _ => absurd rfl h
  | x :: xs, _, h => by
    rw [List.sum_cons]
    have hx := h x (List.mem_cons_self _ _)
    rcases eq_or_ne xs [] with h1 | h1
    · subst h1; simpa using hx
    · have := sum_neg_of_mem_neg xs h1 fun y hy => h y (List.mem_cons_of_mem _ hy)
      linarith

theorem gross_loss_pos_iff (pnls : List ℚ) :
    0 < gross_loss pnls ↔ losing_trades pnls ≠ 0 := by
  unfold gross_loss losing_trades
  constructor
  · intro h hlen
    rw [List.length_eq_zero] at hlen
    rw [hlen] at h
    simp at h
  · intro h
    have hne : pnls.filter (fun p => p < 0) ≠ [] := by
      intro hh
      rw [hh] at h
      simp at h
    have hneg : (pnls.filter (fun p => p < 0)).sum < 0 :=
      sum_neg_of_mem_neg _ hne fun x hx => by
        simpa using List.of_mem_filter hx
    simpa using abs_pos.mpr hneg.ne

/-! ## C5 — profit factor (the claim fails on an all-zero-P&L ledger) -/

/-- Counterexample to C5 as stated: on the one-trade ledger with pnl = 0
there are no winning trades, yet the code returns the +∞ sentinel (gross
loss is 0), not 0 — refuting both the "exactly when" direction and the
"0 when no winners" direction at this input. -/
theorem C5_profit_factor_counterexample :
    ¬ ((profit_factor [(0:ℚ)] = PFValue.posInf ↔
          0 < winning_trades [(0:ℚ)] ∧ losing_trades [(0:ℚ)] = 0) ∧
       (winning_trades [(0:ℚ)] = 0 → profit_factor [(0:ℚ)] = PFValue.finite 0)) := by
  decide

/-- C5 amended: the profit factor is +∞ exactly when the ledger is
non-empty and has zero losing trades (regardless of winners); it is 0
whenever there are no winning trades and either the ledger is empty or at
least one losing trade exists. -/
theorem C5_profit_factor_amended (pnls : List ℚ) :
    (profit_factor pnls = PFValue.posInf ↔ pnls ≠ [] ∧ losing_trades pnls = 0) ∧
    (winning_trades pnls = 0 → (pnls = [] ∨ losing_trades pnls ≠ 0) →
      profit_factor pnls = PFValue.finite 0) := by
  constructor
  · unfold profit_factor
    by_cases he : pnls = []
    · simp [he]
    · rw [if_neg he]
      by_cases hl : 0 < gross_loss pnls
      · rw [if_pos hl]
        have hlt : losing_trades pnls ≠ 0 := (gross_loss_pos_iff pnls).mp hl
        constructor
        · intro h
          exact absurd h (by simp)
        · rintro ⟨-, h0⟩
          exact absurd h0 hlt
      · rw [if_neg hl]
        have hy : losing_trades pnls = 0 := by
          by_contra hno
          exact hl ((gross_loss_pos_iff pnls).mpr hno)
        simp [he, hy]
  · intro hw hcase
    rcases hcase with he | hl
    · simp [profit_factor, he]
    · have hglpos : 0 < gross_loss pnls := (gross_loss_pos_iff pnls).mpr hl
      have hne : pnls ≠ [] := by
        intro he
        subst he
        simp [losing_trades] at hl
      have hgp : gross_profit pnls = 0 := by
        unfold winning_trades at hw
        unfold gross_profit
        rw [List.length_eq_zero] at hw
        rw [hw]
        rfl
      unfold profit_factor
      rw [if_neg hne, if_pos hglpos, hgp, zero_div]

/-- Witness for the amended C5: a single losing trade has no winners and
one loser, and its profit factor is 0. -/
theorem C5_profit_factor_amended_witness :
    profit_factor [(-1 : ℚ)] = PFValue.finite 0 :=
  (C5_profit_factor_amended [(-1 : ℚ)]).2 (by decide) (Or.inr (by decide))

/-! ## C6 — maximum drawdown -/

theorem drawdownsFrom_nonpos : ∀ (es : List ℚ) (m : ℚ), 0 < m →
    ∀ d ∈ drawdownsFrom m es, d ≤ 0
  | [], _, _ => by simp [drawdownsFrom]
  | e :: es, m, hm => by
    intro d hd
    have hM : 0 < max m e := lt_of_lt_of_le hm (le_max_left m e)
    rw [drawdownsFrom] at hd
    rcases List.mem_cons.mp hd with h | h
    · subst h
      have h2 : e - max m e ≤ 0 := sub_nonpos.mpr (le_max_right m e)
      exact div_nonpos_iff.mpr (Or.inr ⟨h2, hM.le⟩)
    · exact drawdownsFrom_nonpos es (max m e) hM d h

theorem drawdownsFrom_all_zero_iff : ∀ (es : List ℚ) (m : ℚ), 0 < m →
    ((∀ d ∈ drawdownsFrom m es, d = 0) ↔ List.Chain (· ≤ ·) m es)
  | [], m, _ => by simp [drawdownsFrom]
  | e :: es, m, hm => by
    have hM : 0 < max m e := lt_of_lt_of_le hm (le_max_left m e)
    rw [drawdownsFrom, List.chain_cons]
    constructor
    · intro h
      have h0 : (e - max m e) / max m e = 0 := h _ (List.mem_cons_self _ _)
      have hnum : e - max m e = 0 := by
        rcases div_eq_zero_iff.mp h0 with h1 | h1
        · exact h1
        · exact absurd h1 hM.ne'
      have hmax : max m e = e := by linarith
      have hme : m ≤ e := max_eq_right_iff.mp hmax
      refine ⟨hme, ?_⟩
      have htail := (drawdownsFrom_all_zero_iff es (max m e) hM).mp
        fun d hd => h d (List.mem_cons_of_mem _ hd)
      rwa [hmax] at htail
    · rintro ⟨hme, hchain⟩
      have hmax : max m e = e := max_eq_right hme
      intro d hd
      rcases List.mem_cons.mp hd with h1 | h1
      · rw [h1, hmax, sub_self, zero_div]
      · exact (drawdownsFrom_all_zero_iff es (max m e) hM).mpr
          (by rwa [hmax]) d h1

theorem foldl_min_le_init : ∀ (ds : List ℚ) (d : ℚ), ds.foldl min d ≤ d
  | [], d => le_refl d
  | e :: ds, d =>
    le_trans (foldl_min_le_init ds (min d e)) (min_le_left d e)

theorem foldl_min_le_mem : ∀ (ds : List ℚ) (d : ℚ), ∀ x ∈ ds, ds.foldl min d ≤ x
  | [], _, x, hx => absurd hx (List.not_mem_nil x)
  | e :: ds, d, x, hx => by
    rcases List.mem_cons.mp hx with h | h
    · subst h
      exact le_trans (foldl_min_le_init ds (min d x)) (min_le_right d x)
    · exact foldl_min_le_mem ds (min d e) x h

theorem foldl_min_all_zero : ∀ (ds : List ℚ), (∀ x ∈ ds, x = 0) →
    ds.foldl min (0:ℚ) = 0
  | [], _ => rfl
  | e :: ds, h => by
    have he : e = 0 := h e (List.mem_cons_self _ _)
    rw [List.foldl_cons, he, min_self]
    exact foldl_min_all_zero ds fun x hx => h x (List.mem_cons_of_mem _ hx)

/-- C6: for a non-empty trade ledger and positive initial capital, the
maximum drawdown — min over the equity curve of
(equity − running max)/running max — is ≤ 0 and equals 0 exactly when the
equity curve is monotonically non-decreasing. -/
theorem C6_max_drawdown (initial_capital : ℚ) (pnls : List ℚ)
    (hcap : 0 < initial_capital) (hne : pnls ≠ []) :
    max_drawdown initial_capital pnls ≤ 0 ∧
    (max_drawdown initial_capital pnls = 0 ↔
      List.Chain' (· ≤ ·) (metric_equity_curve initial_capital pnls)) := by
  obtain ⟨es, hcv⟩ : ∃ es, metric_equity_curve initial_capital pnls
      = initial_capital :: es := by
    cases pnls with
    | nil => exact ⟨[], rfl⟩
    | cons p ps => exact ⟨_, rfl⟩
  have hdd : drawdownsFrom initial_capital (initial_capital :: es)
      = 0 :: drawdownsFrom initial_capital es := by
    rw [drawdownsFrom, max_self, sub_self, zero_div]
  have hmd : max_drawdown initial_capital pnls
      = (drawdownsFrom initial_capital es).foldl min 0 := by
    unfold max_drawdown
    rw [hcv]
    dsimp only
    rw [hdd]
  have hall : ∀ d ∈ drawdownsFrom initial_capital es, d ≤ 0 :=
    drawdownsFrom_nonpos es initial_capital hcap
  refine ⟨?_, ?_⟩
  · rw [hmd]
    exact foldl_min_le_init _ 0
  · rw [hmd, hcv]
    constructor
    · intro h0
      have hzero : ∀ d ∈ drawdownsFrom initial_capital es, d = 0 := by
        intro d hd
        have h1 := foldl_min_le_mem _ 0 d hd
        rw [h0] at h1
        exact le_antisymm (hall d hd) h1
      exact ((drawdownsFrom_all_zero_iff es initial_capital hcap).mp hzero :
        List.Chain (· ≤ ·) initial_capital es)
    · intro hch
      have hchain : List.Chain (· ≤ ·) initial_capital es := hch
      exact foldl_min_all_zero _
        ((drawdownsFrom_all_zero_iff es initial_capital hcap).mpr hchain)

/-- Witness for C6: initial capital 100 with trade P&Ls [10, −5] — the
maximum drawdown is non-positive. -/
theorem C6_max_drawdown_witness :
    max_drawdown 100 [(10:ℚ), -5] ≤ 0 :=
  (C6_max_drawdown 100 [(10:ℚ), -5] (by norm_num) (by decide)).1

/-! ## C7 — the trend classifier -/

/-- C7: with at least `period` bars (a usable period ≥ 2 and a positive
long SMA, as the source's float division presumes), the trend analyzer
classifies UP exactly when price > short SMA > long SMA, DOWN exactly when
price < short SMA < long SMA, SIDEWAYS otherwise — the direction is always
one of those three — with strength min(1, 10·|price − long SMA|/long SMA). -/
theorem C7_trend_classifier (closes : List ℚ) (period : ℕ)
    (hlen : period ≤ closes.length) (hper : 2 ≤ period)
    (hsma : 0 < smaLast closes period) :
    ((analyze_trend closes period).direction = TrendDirection.UP ↔
      smaLast closes period < smaLast closes (period / 2) ∧
      smaLast closes (period / 2) < closes.getLastD 0) ∧
    ((analyze_trend closes period).direction = TrendDirection.DOWN ↔
      closes.getLastD 0 < smaLast closes (period / 2) ∧
      smaLast closes (period / 2) < smaLast closes period) ∧
    ((analyze_trend closes period).direction = TrendDirection.UP ∨
     (analyze_trend closes period).direction = TrendDirection.DOWN ∨
     (analyze_trend closes period).direction = TrendDirection.SIDEWAYS) ∧
    (analyze_trend closes period).strength =
      min 1 (10 * |closes.getLastD 0 - smaLast closes period|
              / smaLast closes period) := by
  have hnot : ¬ closes.length < period := not_lt.mpr hlen
  unfold analyze_trend
  rw [if_neg hnot]
  dsimp only
  refine ⟨?_, ?_, ?_, ?_⟩
  · split_ifs with h1 h2
    · exact iff_of_true rfl ⟨h1.2, h1.1⟩
    · exact iff_of_false (by simp) (by rintro ⟨a, b⟩; linarith [h2.1, h2.2])
    · exact iff_of_false (by simp) (by rintro ⟨a, b⟩; exact h1 ⟨b, a⟩)
  · split_ifs with h1 h2
    · exact iff_of_false (by simp) (by rintro ⟨a, b⟩; linarith [h1.1, h1.2])
    · exact iff_of_true rfl ⟨h2.1, h2.2⟩
    · exact iff_of_false (by simp) (by rintro ⟨a, b⟩; exact h2 ⟨a, b⟩)
  · split_ifs <;> simp
  · have harith : |closes.getLastD 0 - smaLast closes period|
        / smaLast closes period * 10
      = 10 * |closes.getLastD 0 - smaLast closes period|
          / smaLast closes period := by
      ring
    rw [harith]

/-- Witness for C7: closes [1, 2, 3, 10] with period 4 (short SMA 6.5,
long SMA 4, price 10) classify as UP. -/
theorem C7_trend_classifier_witness :
    (analyze_trend [1, 2, 3, 10] 4).direction = TrendDirection.UP :=
  (C7_trend_classifier [1, 2, 3, 10] 4 (by decide) (by decide)
      (by norm_num [smaLast])).1.mpr
    (by norm_num [smaLast, List.getLastD])

/-! ## C3 — exit rule and force-close of the walk-forward loop -/

/-- C3: at every step an open position is closed exactly when it has been
held at least `min_holding_days` calendar days, recording the trade with
directional pnl minus commission = (entry + exit)·size·rate; a position
held less than the minimum stays open and no trade is recorded; a flat
state records no trade at the exit phase; and a position still open after
the last step is force-closed at the final bar's close with the same
formulas. -/
theorem C3_exit_rule_and_force_close (P : BTParams) (st : BTState) (s : BtStep)
    (pos : Position) (hpos : st.position = some pos) :
    (P.min_holding_days ≤ s.date - pos.entry_date →
      (processStep P st s).trades = st.trades ++
        [{ entry_date := pos.entry_date
           exit_date := s.date
           side := pos.side
           entry_price := pos.entry_price
           exit_price := s.price
           size := pos.size
           pnl := (if pos.side = Signal.LONG
                    then (s.price - pos.entry_price) * pos.size
                    else (pos.entry_price - s.price) * pos.size)
                  - (pos.entry_price + s.price) * pos.size * P.commission_rate
           commission := (pos.entry_price + s.price) * pos.size * P.commission_rate
           days_held := s.date - pos.entry_date
           signal_confidence := pos.signal_confidence }]) ∧
    (s.date - pos.entry_date < P.min_holding_days →
      (processStep P st s).trades = st.trades ∧
      (processStep P st s).position = some pos) ∧
    (∀ st2 : BTState, st2.position = none →
      ∀ s2 : BtStep, (processStep P st2 s2).trades = st2.trades) ∧
    (∀ (steps : List BtStep) (final_date : ℤ) (final_price : ℚ) (pos2 : Position),
      (bt_loop P steps).position = some pos2 →
      (run_walk_forward_backtest P steps final_date final_price).trades
        = (bt_loop P steps).trades ++
          [{ entry_date := pos2.entry_date
             exit_date := final_date
             side := pos2.side
             entry_price := pos2.entry_price
             exit_price := final_price
             size := pos2.size
             pnl := (if pos2.side = Signal.LONG
                      then (final_price - pos2.entry_price) * pos2.size
                      else (pos2.entry_price - final_price) * pos2.size)
                    - (pos2.entry_price + final_price) * pos2.size * P.commission_rate
             commission := (pos2.entry_price + final_price) * pos2.size
                             * P.commission_rate
             days_held := final_date - pos2.entry_date
             signal_confidence := pos2.signal_confidence }]) ∧
    (∀ (steps : List BtStep) (final_date : ℤ) (final_price : ℚ),
      (bt_loop P steps).position = none →
      (run_walk_forward_backtest P steps final_date final_price).trades
        = (bt_loop P steps).trades) := by
  refine ⟨?_, ?_, ?_, ?_, ?_⟩
  · intro h
    simp only [processStep, hpos]
    rw [if_pos h]
    dsimp only
    by_cases hd : s.signal.decision = Signal.FLAT
    · rw [if_neg (by simp [hd])]
      rfl
    · rw [if_pos ⟨rfl, hd⟩]
      by_cases hs : 0 < calculate_position_size s.signal s.price
          (st.capital + (close_trade P pos s.date s.price).pnl)
      · rw [if_pos hs]
        rfl
      · rw [if_neg hs]
        rfl
  · intro h
    simp only [processStep, hpos]
    rw [if_neg (not_le.mpr h)]
    rw [if_neg (by simp [hpos])]
    exact ⟨rfl, hpos⟩
  · intro st2 hnone s2
    simp only [processStep, hnone]
    split_ifs <;> rfl
  · intro steps final_date final_price pos2 h2
    unfold run_walk_forward_backtest
    dsimp only
    rw [h2]
    rfl
  · intro steps final_date final_price h2
    unfold run_walk_forward_backtest
    dsimp only
    rw [h2]

/-- Witness for C3: the demo LONG position held 10 ≥ 7 calendar days is
closed at the step's bar, appending exactly one trade. -/
theorem C3_exit_rule_witness :
    (processStep btDemoParams btDemoState btDemoStep).trades
      = btDemoState.trades ++
        [close_trade btDemoParams btDemoPos btDemoStep.date btDemoStep.price] :=
  (C3_exit_rule_and_force_close btDemoParams btDemoState btDemoStep btDemoPos
    rfl).1 (by decide)

/-! ## C10 — exit strictly precedes entry within one step -/

/-- C10: when the holding-period exit fires at a step whose decision is
non-FLAT with positive computed size (sized on the post-close capital),
the step both records the closing trade and opens a new position at the
same bar's date and close price — close-and-reopen, including direction
reversal, within one step, with at most one position ever held (the state
carries a single optional position). -/
theorem C10_close_then_reopen (P : BTParams) (st : BTState) (s : BtStep)
    (pos : Position) (hpos : st.position = some pos)
    (hheld : P.min_holding_days ≤ s.date - pos.entry_date)
    (hdir : s.signal.decision ≠ Signal.FLAT)
    (hsize : 0 < calculate_position_size s.signal s.price
        (st.capital + (close_trade P pos s.date s.price).pnl)) :
    (processStep P st s).trades
      = st.trades ++ [close_trade P pos s.date s.price] ∧
    (processStep P st s).position = some
      { entry_date := s.date
        side := s.signal.decision
        entry_price := s.price
        size := calculate_position_size s.signal s.price
          (st.capital + (close_trade P pos s.date s.price).pnl)
        signal_confidence := s.signal.confidence } := by
  simp only [processStep, hpos]
  rw [if_pos hheld]
  dsimp only
  rw [if_pos ⟨rfl, hdir⟩, if_pos hsize]
  exact ⟨rfl, rfl⟩

/-- Witness for C10: the demo step closes the 10-day-old LONG position and
immediately opens a SHORT at the same bar. -/
theorem C10_close_then_reopen_witness :
    (processStep btDemoParams btDemoState btDemoStep).position = some
      { entry_date := btDemoStep.date
        side := btDemoStep.signal.decision
        entry_price := btDemoStep.price
        size := calculate_position_size btDemoStep.signal btDemoStep.price
          (btDemoState.capital +
            (close_trade btDemoParams btDemoPos btDemoStep.date btDemoStep.price).pnl)
        signal_confidence := btDemoStep.signal.confidence } :=
  (C10_close_then_reopen btDemoParams btDemoState btDemoStep btDemoPos rfl
    (by decide) (by decide)
    (by
      simp only [btDemoParams, btDemoPos, btDemoStep, btDemoState,
        calculate_position_size, close_trade, gross_pnl, commission_of]
      rw [if_neg (show ¬ Signal.SHORT = Signal.FLAT from by decide)]
      norm_num [lt_min_iff])).2

end TradingSuite
